import Mathlib

/-!
# meateam/migration: a verification development

A shallow embedding of the three migration jobs (`migrations/file.go`,
`migrations/permission.go`, `migrations/search.go`) and of the orchestrator
(`main.go`).

Documents of the two MongoDB collections are records whose optional fields
(`creator`, `float`, `parent`) carry their presence explicitly; the `bson.D`
filters and updates of the source are data, interpreted by `holds` / `apply`;
the outcome of every database or remote call is supplied by an environment
record, so that every theorem quantifies over all behaviours of the
collaborators.
-/

namespace Migration

/-! ## Errors and identifiers -/

/-- Go `error` values: the sentinel `mongo.ErrNoDocuments`, or any other error,
carried as its printed text. -/
inductive Err where
  | ErrNoDocuments
  | msg (text : String)
deriving DecidableEq, Repr

/-- The `%v` rendering of an error. -/
def Err.text : Err → String
  | .ErrNoDocuments => "mongo: no documents in result"
  | .msg t => t

/-- The value of `fmt.Errorf(head ++ "%v", err)`. -/
def Errorf (head : String) (err : Err) : Err :=
  .msg (head ++ err.text)

/-- The type `primitive.ObjectID`: raw bytes (twelve of them in the driver). -/
structure ObjectID where
  bytes : List (Fin 256)
deriving DecidableEq, Repr

/-- One lower-case hexadecimal digit. -/
def hexDigit (n : Nat) : Char :=
  ['0', '1', '2', '3', '4', '5', '6', '7', '8', '9', 'a', 'b', 'c', 'd', 'e', 'f'].getD n '0'

/-- The method `ObjectID.Hex`: two lower-case hexadecimal digits per byte. -/
def ObjectID.Hex (id : ObjectID) : String :=
  String.mk (id.bytes.flatMap (fun b => [hexDigit (b.val / 16), hexDigit (b.val % 16)]))

/-- The `%s` rendering of an ObjectID (its `String` method). -/
def ObjectID.render (id : ObjectID) : String :=
  "ObjectID(\"" ++ id.Hex ++ "\")"

/-! ## Collections -/

/-- The method `Collection.UpdateMany`: when the call succeeds every document
accepted by the filter is rewritten by the update, in place; a failed call
leaves the collection as it was. -/
def UpdateMany {δ : Type} (callErr : Option Err) (accepts : δ → Bool) (apply : δ → δ)
    (coll : List δ) : Option Err × List δ :=
  match callErr with
  | some e => (some e, coll)
  | none => (none, coll.map (fun d => if accepts d then apply d else d))

/-- Rewrite the first document accepted by the filter. -/
def updateFirst {δ : Type} (accepts : δ → Bool) (apply : δ → δ) : List δ → List δ
  | [] => []
  | d :: ds => if accepts d then apply d :: ds else d :: updateFirst accepts apply ds

/-- The method `Collection.FindOneAndUpdate`, reduced to the error of its
`SingleResult`: the first document accepted by the filter is rewritten;
when no document is accepted the result carries `mongo.ErrNoDocuments`; a
failed call (`callErr` is the text of its error) leaves the collection as it
was. -/
def FindOneAndUpdate {δ : Type} (callErr : Option String) (accepts : δ → Bool) (apply : δ → δ)
    (coll : List δ) : Option Err × List δ :=
  match callErr with
  | some e => (some (.msg e), coll)
  | none =>
    if coll.any accepts then (none, updateFirst accepts apply coll)
    else (some .ErrNoDocuments, coll)

/-- What a cursor does besides yielding documents: `Find` may fail, decoding
the n-th document may fail, and the cursor may report an error at its end. -/
structure CursorEnv where
  findErr : Option Err
  decodeErr : Nat → Option Err
  cursorErr : Option Err

/-- The loop `for cur.Next(ctx)` with `cur.Decode` in its body: the decoded
documents in cursor order, or the first decoding error. -/
def decodeAll {δ β : Type} (decode : δ → β) (decodeErr : Nat → Option Err) :
    Nat → List δ → Except Err (List β)
  | _, [] => .ok []
  | n, d :: ds =>
    match decodeErr n with
    | some e => .error e
    | none =>
      match decodeAll decode decodeErr (n + 1) ds with
      | .error e => .error e
      | .ok bs => .ok (decode d :: bs)

/-! ## The permission collection (`migrations/permission.go`) -/

/-- A document of the "permissions" collection. `Creator = none` is a document
without a `creator` field. -/
structure PermissionDoc where
  ID : ObjectID
  FileID : String
  UserID : String
  Role : Int
  Creator : Option String
deriving DecidableEq, Repr

/-- The struct `BSON`: a permission as decoded from the store. -/
structure BSON where
  ID : ObjectID
  FileID : String
  UserID : String
  Role : Int
  Creator : String
deriving DecidableEq, Repr

/-- The effect of `cur.Decode(permission)`: an absent field is the zero value. -/
def BSON.decode (d : PermissionDoc) : BSON :=
  { ID := d.ID, FileID := d.FileID, UserID := d.UserID, Role := d.Role,
    Creator := d.Creator.getD "" }

/-- One element of a `bson.D` filter on the permission collection. -/
inductive PermissionCond where
  /-- The element `role: {$eq: v}`. -/
  | roleEq (v : Int)
  /-- The element `_id: id`. -/
  | idIs (id : ObjectID)
  /-- The element `creator: {$exists: b}`. -/
  | creatorExists (b : Bool)
deriving DecidableEq, Repr

/-- Whether a document satisfies one element of a filter. -/
def PermissionCond.holds : PermissionCond → PermissionDoc → Bool
  | .roleEq v, d => d.Role == v
  | .idIs id, d => d.ID == id
  | .creatorExists b, d => d.Creator.isSome == b

/-- A `bson.D` filter: a document is accepted when every element holds. -/
def PermissionCond.accepts (filter : List PermissionCond) (d : PermissionDoc) : Bool :=
  filter.all (fun c => c.holds d)

/-- A `$set` update document on the permission collection. -/
inductive PermissionUpdate where
  /-- The update `$set: {role: v}`. -/
  | setRole (v : Int)
  /-- The update `$set: {creator: v}`. -/
  | setCreator (v : String)
deriving DecidableEq, Repr

/-- The effect of a `$set` update on one document. -/
def PermissionUpdate.apply : PermissionUpdate → PermissionDoc → PermissionDoc
  | .setRole v, d => { d with Role := v }
  | .setCreator v, d => { d with Creator := some v }

/-- The file returned by `GetFileByID`, reduced to the field the migration reads. -/
structure FpbFile where
  OwnerID : String
deriving DecidableEq, Repr

/-- The getter `GetOwnerID` of the file message. -/
def FpbFile.GetOwnerID (f : FpbFile) : String := f.OwnerID

/-- Behaviour of the collaborators of the struct `Permission` during one run:
the database handle `db` and the client `fileServiceClient`. The calls made in
the loop of `RunSetCreator` are numbered by the position of the record they
are made for. `findOneAndUpdateErr` is the text of the error of a call that
failed: the sentinel `mongo.ErrNoDocuments` is what `FindOneAndUpdate` itself
answers when no document matches. -/
structure PermissionEnv where
  readRoleErr : Option Err
  writeRoleErr : Option Err
  cursor : CursorEnv
  GetFileByID : Nat → String → Except Err FpbFile
  findOneAndUpdateErr : Nat → Option String

/-- The literal `filterReadRole`. -/
def filterReadRole : List PermissionCond := [.roleEq 3]

/-- The literal `updateReadRole`. -/
def updateReadRole : PermissionUpdate := .setRole 2

/-- RunReadRoleUpdate runs the update read role migration. -/
def Permission.RunReadRoleUpdate (env : PermissionEnv) (coll : List PermissionDoc) :
    Option Err × List PermissionDoc :=
  match UpdateMany env.readRoleErr (PermissionCond.accepts filterReadRole) updateReadRole.apply coll with
  | (some err, coll') =>
    (some (Errorf "failed updating read role from 3 to 2 in Permission-Service: " err), coll')
  | (none, coll') => (none, coll')

/-- The literal `filterWriteRole`. -/
def filterWriteRole : List PermissionCond := [.roleEq 2]

/-- The literal `updateWriteRole`. -/
def updateWriteRole : PermissionUpdate := .setRole 1

/-- RunWriteRoleUpdate runs the update write role migration (its call in
`Permission.Run` is commented out). -/
def Permission.RunWriteRoleUpdate (env : PermissionEnv) (coll : List PermissionDoc) :
    Option Err × List PermissionDoc :=
  match UpdateMany env.writeRoleErr (PermissionCond.accepts filterWriteRole) updateWriteRole.apply coll with
  | (some err, coll') =>
    (some (Errorf "failed updating write role from 2 to 1 in Permission-Service: " err), coll')
  | (none, coll') => (none, coll')

/-- An external call made by the loop of `RunSetCreator`, with the position
of the record it was made for. -/
inductive SetCreatorCall where
  /-- The call `GetFileByID` for a file identifier, and the owner it returned
  (`none` when it failed). -/
  | lookup (n : Nat) (FileID : String) (owner : Option String)
  /-- The call `FindOneAndUpdate` for a permission identifier and an owner. -/
  | update (n : Nat) (ID : ObjectID) (owner : String)
deriving DecidableEq, Repr

/-- What a run of `RunSetCreator` leaves behind: the returned error, the
collection, and the external calls it made, in order. -/
structure SetCreatorResult where
  err : Option Err
  coll : List PermissionDoc
  calls : List SetCreatorCall
deriving DecidableEq, Repr

/-- The literal `filterByID` built for one loaded permission. -/
def filterByID (permission : BSON) : List PermissionCond :=
  [.idIs permission.ID, .creatorExists false]

/-- The literal `updateCreator` built for one fetched file. -/
def updateCreator (file : FpbFile) : PermissionUpdate :=
  .setCreator file.GetOwnerID

/-- The loop `for _, permission := range permissions` of `RunSetCreator`; `n`
is the position of the first remaining permission. -/
def setCreatorLoop (env : PermissionEnv) :
    Nat → List BSON → List PermissionDoc → SetCreatorResult
  | _, [], coll => { err := none, coll := coll, calls := [] }
  | n, permission :: rest, coll =>
    match env.GetFileByID n permission.FileID with
    | .error err =>
      { err := some (Errorf ("failed getting file " ++ permission.FileID ++ " from File-Service: ") err),
        coll := coll,
        calls := [.lookup n permission.FileID none] }
    | .ok file =>
      let res := FindOneAndUpdate (env.findOneAndUpdateErr n)
        (PermissionCond.accepts (filterByID permission)) (updateCreator file).apply coll
      let made : List SetCreatorCall :=
        [.lookup n permission.FileID (some file.GetOwnerID), .update n permission.ID file.GetOwnerID]
      match res.1 with
      | some resErr =>
        if resErr ≠ Err.ErrNoDocuments then
          { err := some (Errorf ("failed setting creator for permissions " ++ permission.ID.render
              ++ " with ownerID " ++ file.GetOwnerID ++ ": ") resErr),
            coll := res.2,
            calls := made }
        else
          let r := setCreatorLoop env (n + 1) rest res.2
          { r with calls := made ++ r.calls }
      | none =>
        let r := setCreatorLoop env (n + 1) rest res.2
        { r with calls := made ++ r.calls }

/-- RunSetCreator runs the setting of the creator field to the owner of the file. -/
def Permission.RunSetCreator (env : PermissionEnv) (coll : List PermissionDoc) :
    SetCreatorResult :=
  match env.cursor.findErr with
  | some err => { err := some err, coll := coll, calls := [] }
  | none =>
    match decodeAll BSON.decode env.cursor.decodeErr 0 coll with
    | .error err => { err := some err, coll := coll, calls := [] }
    | .ok permissions =>
      match env.cursor.cursorErr with
      | some err => { err := some (Errorf "SetCreator cursor error: " err), coll := coll, calls := [] }
      | none => setCreatorLoop env 0 permissions coll

/-- What a job leaves behind: the errors it sent on `errc`, in the order they
were sent, and the store. -/
structure JobResult (σ : Type) where
  sent : List Err
  store : σ

/-- The errors a sub-task hands to `errc`: `if err != nil then errc <- err`. -/
def sendIfErr (err : Option Err) : List Err :=
  match err with
  | some e => [e]
  | none => []

/-- Run runs the Permission-Service migration: the two sub-tasks, each in
a goroutine of its own; `creatorFirst` says which of them the scheduler lets
finish first. -/
def Permission.Run (env : PermissionEnv) (creatorFirst : Bool) (coll : List PermissionDoc) :
    JobResult (List PermissionDoc) :=
  if creatorFirst then
    let c := Permission.RunSetCreator env coll
    let r := Permission.RunReadRoleUpdate env c.coll
    { sent := sendIfErr c.err ++ sendIfErr r.1, store := r.2 }
  else
    let r := Permission.RunReadRoleUpdate env coll
    let c := Permission.RunSetCreator env r.2
    { sent := sendIfErr r.1 ++ sendIfErr c.err, store := c.coll }

/-! ## The file collection (`migrations/file.go`) -/

/-- A document of the "files" collection. `Float = none` is a document without
a `float` field, `Parent = none` one without a `parent` field; the two
timestamps are milliseconds since the epoch. -/
structure FileDoc where
  ID : ObjectID
  Description : String
  Size : Int
  Parent : Option ObjectID
  Float : Option Bool
  Type' : String
  Name : String
  OwnerID : String
  Bucket : String
  Key : String
  CreatedAt : Int
  UpdatedAt : Int
deriving DecidableEq, Repr

/-- An index of the "files" collection. -/
structure Index where
  Name : String
  Keys : List (String × Int)
  Unique : Bool
  Background : Bool
deriving DecidableEq, Repr

/-- The file store: the documents of the "files" collection and its indexes. -/
structure FileStore where
  files : List FileDoc
  indexes : List Index
deriving DecidableEq, Repr

/-- One element of a `bson.D` filter on the file collection. -/
inductive FileCond where
  /-- The element `float: {$exists: b}`. -/
  | floatExists (b : Bool)
deriving DecidableEq, Repr

/-- Whether a document satisfies one element of a filter. -/
def FileCond.holds : FileCond → FileDoc → Bool
  | .floatExists b, d => d.Float.isSome == b

/-- A `bson.D` filter: a document is accepted when every element holds. -/
def FileCond.accepts (filter : List FileCond) (d : FileDoc) : Bool :=
  filter.all (fun c => c.holds d)

/-- A `$set` update document on the file collection. -/
inductive FileUpdate where
  /-- The update `$set: {float: v}`. -/
  | setFloat (v : Bool)
deriving DecidableEq, Repr

/-- The effect of a `$set` update on one document. -/
def FileUpdate.apply : FileUpdate → FileDoc → FileDoc
  | .setFloat v, d => { d with Float := some v }

/-- Behaviour of the database handle of the struct `File` during one run:
the outcome of `UpdateMany`, of `DropOne`, and of `CreateOne` (the name of the
created index, or an error). -/
structure FileEnv where
  setFloatErr : Option Err
  dropOneErr : Option Err
  createOne : Except Err String

/-- The literal `filter` of `RunSetFloat`. -/
def filterFloat : List FileCond := [.floatExists false]

/-- The literal `update` of `RunSetFloat`. -/
def updateFloat : FileUpdate := .setFloat false

/-- RunSetFloat runs the setting of the float field to false for all files
documents where it doesn't exist. -/
def File.RunSetFloat (env : FileEnv) (coll : List FileDoc) : Option Err × List FileDoc :=
  match UpdateMany env.setFloatErr (FileCond.accepts filterFloat) updateFloat.apply coll with
  | (some err, coll') => (some (Errorf "failed setting float: false for File-Service: " err), coll')
  | (none, coll') => (none, coll')

/-- The literal `indexModel`: three ascending keys, built in the background. -/
def indexModel : Index :=
  { Name := "", Keys := [("name", 1), ("parent", 1), ("ownerID", 1)],
    Unique := false, Background := true }

/-- The method `IndexView.DropOne`: a failed call, or a name no index has, is
an error; otherwise the index of that name is removed. -/
def DropOne (callErr : Option Err) (name : String) (indexes : List Index) :
    Option Err × List Index :=
  match callErr with
  | some e => (some e, indexes)
  | none =>
    if indexes.any (fun i => i.Name == name) then (none, indexes.filter (fun i => i.Name != name))
    else (some (.msg ("index not found with name [" ++ name ++ "]")), indexes)

/-- The method `IndexView.CreateOne`: the index is added under the name the
call reports. -/
def CreateOne (outcome : Except Err String) (model : Index) (indexes : List Index) :
    Except Err String × List Index :=
  match outcome with
  | .error e => (.error e, indexes)
  | .ok name => (.ok name, indexes ++ [{ model with Name := name }])

/-- RunUpdateNameParentOwnerIndex drops the old name_1_parent_1_ownerID_1
unique index, and creates the new not-unique index. -/
def File.RunUpdateNameParentOwnerIndex (env : FileEnv) (indexes : List Index) :
    Option Err × List Index :=
  match DropOne env.dropOneErr "name_1_parent_1_ownerID_1" indexes with
  | (some err, indexes1) =>
    (some (Errorf "failed dropping old index name_1_parent_1_ownerID_1 for File-Service: " err),
      indexes1)
  | (none, indexes1) =>
    match CreateOne env.createOne indexModel indexes1 with
    | (.error err, indexes2) =>
      (some (Errorf "failed creating index name_1_parent_1_ownerID_1 for File-Service: " err),
        indexes2)
    | (.ok name, indexes2) =>
      if name ≠ "name_1_parent_1_ownerID_1" then
        (some (.msg ("unexpected created index name: expected: name_1_parent_1_ownerID_1 but got: "
          ++ name)), indexes2)
      else (none, indexes2)

/-- Run runs the File-Service migration: the two sub-tasks, each in a
goroutine of its own; `indexFirst` says which of them the scheduler lets
finish first. -/
def File.Run (env : FileEnv) (indexFirst : Bool) (store : FileStore) : JobResult FileStore :=
  let f := File.RunSetFloat env store.files
  let i := File.RunUpdateNameParentOwnerIndex env store.indexes
  { sent := if indexFirst then sendIfErr i.1 ++ sendIfErr f.1 else sendIfErr f.1 ++ sendIfErr i.1,
    store := { files := f.2, indexes := i.2 } }

/-! ## The search resync (`migrations/search.go`) -/

/-- FileBSON is a struct of the file document that is stored in MongoDB. -/
structure FileBSON where
  ID : ObjectID
  Description : String
  Size : Int
  Parent : Option ObjectID
  Float : Bool
  Type' : String
  Name : String
  OwnerID : String
  Bucket : String
  Key : String
  CreatedAt : Int
  UpdatedAt : Int
deriving DecidableEq, Repr

/-- The effect of `cur.Decode(file)`: an absent `float` is the zero value and
an absent `parent` the nil pointer. -/
def FileBSON.decode (d : FileDoc) : FileBSON :=
  { ID := d.ID, Description := d.Description, Size := d.Size, Parent := d.Parent,
    Float := d.Float.getD false, Type' := d.Type', Name := d.Name, OwnerID := d.OwnerID,
    Bucket := d.Bucket, Key := d.Key, CreatedAt := d.CreatedAt, UpdatedAt := d.UpdatedAt }

/-- The expression `t.Time().Unix()` on a `primitive.DateTime`: whole seconds
since the epoch, rounded down. -/
def DateTime.Unix (ms : Int) : Int := ms / 1000

/-- Modelled from the spec: the declaration of the oneof field `FileOrId` of
the search message is not in the repository; the migration builds the wrapper
`File_Parent` only, so the location is "has parent X" when the wrapper is set
and "is root" when the field is left nil. -/
inductive FileOrId where
  | File_Parent (Parent : String)
deriving DecidableEq, Repr

/-- Modelled from the spec: the message `spb.File` of the search service, with
the fields the migration sets; its declaration is not in the repository. -/
inductive SpbFile where
  | mk (Id Key Bucket Name Type' Description OwnerID : String) (Size CreatedAt UpdatedAt : Int)
      (Children : List SpbFile) (FileOrId : Option FileOrId)

/-- The field `FileOrId` of a search message. -/
def SpbFile.FileOrId : SpbFile → Option FileOrId
  | .mk _ _ _ _ _ _ _ _ _ _ _ loc => loc

/-- The payload built in the body of the loop of `Search.Run`: the literal
`searchFile`, then the assignment of `FileOrId` under `file.Parent != nil`. -/
def searchFile (file : FileBSON) : SpbFile :=
  .mk file.ID.Hex file.Key file.Bucket file.Name file.Type' file.Description file.OwnerID
    file.Size (DateTime.Unix file.CreatedAt) (DateTime.Unix file.UpdatedAt) []
    (match file.Parent with
     | some parent => some (.File_Parent parent.Hex)
     | none => none)

/-- Behaviour of the collaborators of the struct `Search` during one run: the
cursor over the file collection and the client of the search service, whose
n-th call is made for the n-th loaded file. -/
structure SearchEnv where
  cursor : CursorEnv
  CreateFile : Nat → SpbFile → Option Err

/-- What a run of `Search.Run` leaves behind: the errors sent on `errc` and
the payloads handed to `CreateFile`, in order. -/
structure SearchResult where
  sent : List Err
  created : List SpbFile

/-- The loop `for _, file := range files` of `Search.Run`; `n` is the position
of the first remaining file. -/
def createLoop (env : SearchEnv) : Nat → List FileBSON → SearchResult
  | _, [] => { sent := [], created := [] }
  | n, file :: rest =>
    match env.CreateFile n (searchFile file) with
    | some err => { sent := [err], created := [searchFile file] }
    | none =>
      let r := createLoop env (n + 1) rest
      { r with created := searchFile file :: r.created }

/-- Run runs the Search-Service migration. -/
def Search.Run (env : SearchEnv) (coll : List FileDoc) : SearchResult :=
  match env.cursor.findErr with
  | some err => { sent := [err], created := [] }
  | none =>
    match decodeAll FileBSON.decode env.cursor.decodeErr 0 coll with
    | .error err => { sent := [err], created := [] }
    | .ok files =>
      match env.cursor.cursorErr with
      | some err => { sent := [err], created := [] }
      | none => createLoop env 0 files

/-! ## The orchestrator (`main.go`)

The goroutines of `main` as an interleaving machine: a schedule names the
goroutine that takes the next step. -/

/-- The goroutines `main` starts, and `main` itself. -/
inductive Tid where
  | file
  | permission
  | search
  | main
deriving DecidableEq, Repr

/-- Where a job goroutine stands: `start` before its first statement,
`running` inside `Run`, `returned` once `Run` has returned. -/
inductive JobPc where
  | start
  | running
  | returned
deriving DecidableEq, Repr

/-- A job goroutine: its position, and the errors its `Run` has still to send. -/
structure Job where
  pc : JobPc
  pending : List Err
deriving DecidableEq, Repr

/-- Where `main` stands: in `wg.Wait()`, about to make the i-th pass of the
drain loop (the pass after the last prints "Migration done"), or returned. -/
inductive MainPc where
  | waiting
  | drain (i : Nat)
  | exited
deriving DecidableEq, Repr

/-- The state of the process after `errc := make(chan error, 5)`. -/
structure Sys where
  wg : Nat
  errc : List Err
  file : Job
  permission : Job
  search : Job
  main : MainPc
  stdout : List String
deriving DecidableEq, Repr

/-- The capacity given to `make(chan error, 5)`. -/
def errcCap : Nat := 5

/-- The state after `wg.Add(3)`, `make(chan error, 5)` and the three `go`
statements, for the errors the three `Run` calls are going to send. The first
statement of the file and permission goroutines is `defer wg.Done()`, which
does nothing until they return, so they stand inside `Run`; the first
statement of the search goroutine is the call `wg.Done()`. -/
def Sys.init (fileSends permissionSends searchSends : List Err) : Sys :=
  { wg := 3, errc := [],
    file := { pc := .running, pending := fileSends },
    permission := { pc := .running, pending := permissionSends },
    search := { pc := .start, pending := searchSends },
    main := .waiting, stdout := [] }

/-- One step of a goroutine started with `defer wg.Done()`: send the next
error (not possible while the channel is full), or return from `Run` and run
the deferred `wg.Done()`. The result is the job, the channel and the counter. -/
def stepDeferred (j : Job) (errc : List Err) (wg : Nat) : Option (Job × List Err × Nat) :=
  match j.pc, j.pending with
  | .running, e :: rest =>
    if errc.length < errcCap then some ({ j with pending := rest }, errc ++ [e], wg) else none
  | .running, [] => some ({ j with pc := .returned }, errc, wg - 1)
  | _, _ => none

/-- One step of the search goroutine, whose body is `wg.Done()` followed by
`searchMigration.Run(errc)`. -/
def stepSearch (j : Job) (errc : List Err) (wg : Nat) : Option (Job × List Err × Nat) :=
  match j.pc, j.pending with
  | .start, _ => some ({ j with pc := .running }, errc, wg - 1)
  | .running, e :: rest =>
    if errc.length < errcCap then some ({ j with pending := rest }, errc ++ [e], wg) else none
  | .running, [] => some ({ j with pc := .returned }, errc, wg)
  | .returned, _ => none

/-- One step of goroutine `t`, `none` when it cannot move: it is blocked, it
has finished, or `main` has returned and the process is gone. -/
def step (t : Tid) (s : Sys) : Option Sys :=
  if s.main = .exited then none else
  match t with
  | .file =>
    (stepDeferred s.file s.errc s.wg).map
      (fun r => { s with file := r.1, errc := r.2.1, wg := r.2.2 })
  | .permission =>
    (stepDeferred s.permission s.errc s.wg).map
      (fun r => { s with permission := r.1, errc := r.2.1, wg := r.2.2 })
  | .search =>
    (stepSearch s.search s.errc s.wg).map
      (fun r => { s with search := r.1, errc := r.2.1, wg := r.2.2 })
  | .main =>
    match s.main with
    | .waiting => if s.wg = 0 then some { s with main := .drain 0 } else none
    | .drain i =>
      if i < 5 then
        match s.errc with
        | err :: rest => some { s with errc := rest, stdout := s.stdout ++ [err.text], main := .drain (i + 1) }
        | [] => some { s with main := .drain (i + 1) }
      else some { s with stdout := s.stdout ++ ["Migration done"], main := .exited }
    | .exited => none

/-- Run a schedule: the goroutines step in the order given; `none` when the
schedule asks a goroutine to move that cannot. -/
def exec : List Tid → Sys → Option Sys
  | [], s => some s
  | t :: ts, s =>
    match step t s with
    | some s' => exec ts s'
    | none => none

/-- Whether goroutine `t` is stuck at a send on the full channel. -/
def blockedOnSend (t : Tid) (s : Sys) : Bool :=
  let job : Option Job :=
    match t with
    | .file => some s.file
    | .permission => some s.permission
    | .search => some s.search
    | .main => none
  match job with
  | some j => j.pc == .running && !j.pending.isEmpty && decide (errcCap ≤ s.errc.length)
  | none => false

/-- The number of errors that sit in `errc` or are still to be sent. -/
def Sys.outstanding (s : Sys) : Nat :=
  s.errc.length + s.file.pending.length + s.permission.pending.length + s.search.pending.length

/-! ## Sample stores and collaborators -/

/-- An ObjectID whose last byte is `b`. -/
def oid (b : Fin 256) : ObjectID :=
  { bytes := List.replicate 11 0 ++ [b] }

/-- A cursor that reads the whole collection without error. -/
def quietCursor : CursorEnv :=
  { findErr := none, decodeErr := fun _ => none, cursorErr := none }

/-- Two permissions: the first has role 3 and the creator "U0", the second
has no creator and references the file "F2". -/
def samplePermissions : List PermissionDoc :=
  [ { ID := oid 1, FileID := "F1", UserID := "A", Role := 3, Creator := some "U0" },
    { ID := oid 2, FileID := "F2", UserID := "B", Role := 1, Creator := none } ]

/-- A permission store and a file service that answer every call: the file
"F2" is owned by "U2", every other file by "U1". -/
def samplePermissionEnv : PermissionEnv :=
  { readRoleErr := none, writeRoleErr := none, cursor := quietCursor,
    GetFileByID := fun _ fid => if fid = "F2" then .ok { OwnerID := "U2" } else .ok { OwnerID := "U1" },
    findOneAndUpdateErr := fun _ => none }

/-- Three permissions without creator. -/
def pendingPermissions : List PermissionDoc :=
  [ { ID := oid 1, FileID := "F1", UserID := "A", Role := 1, Creator := none },
    { ID := oid 2, FileID := "F2", UserID := "B", Role := 1, Creator := none },
    { ID := oid 3, FileID := "F3", UserID := "C", Role := 1, Creator := none } ]

/-- A file service whose answer to the lookup for the record at position 1 is
an error. -/
def failingLookupEnv : PermissionEnv :=
  { readRoleErr := none, writeRoleErr := none, cursor := quietCursor,
    GetFileByID := fun n _ => if n = 1 then .error (.msg "unavailable") else .ok { OwnerID := "U1" },
    findOneAndUpdateErr := fun _ => none }

/-- Three files: a root without float value, a child of it whose float value
is true, and a second root whose float value is false. -/
def sampleFiles : List FileDoc :=
  [ { ID := oid 10, Description := "", Size := 0, Parent := none, Float := none,
      Type' := "folder", Name := "root", OwnerID := "U1", Bucket := "b", Key := "k0",
      CreatedAt := 1500, UpdatedAt := 2500 },
    { ID := oid 11, Description := "", Size := 7, Parent := some (oid 10), Float := some true,
      Type' := "text", Name := "child", OwnerID := "U1", Bucket := "b", Key := "k1",
      CreatedAt := 1500, UpdatedAt := 2500 },
    { ID := oid 12, Description := "", Size := 9, Parent := none, Float := some false,
      Type' := "text", Name := "other", OwnerID := "U2", Bucket := "b", Key := "k2",
      CreatedAt := 0, UpdatedAt := 0 } ]

/-- The file store before the migration: the sample files and the unique
index the migration replaces. -/
def sampleStore : FileStore :=
  { files := sampleFiles,
    indexes := [ { Name := "name_1_parent_1_ownerID_1",
                   Keys := [("name", 1), ("parent", 1), ("ownerID", 1)],
                   Unique := true, Background := false } ] }

/-- A file database that answers every call. -/
def sampleFileEnv : FileEnv :=
  { setFloatErr := none, dropOneErr := none, createOne := .ok "name_1_parent_1_ownerID_1" }

/-- A search service whose answer to the call for the file at position 1 is
an error. -/
def failingSearchEnv : SearchEnv :=
  { cursor := quietCursor,
    CreateFile := fun n _ => if n = 1 then some (.msg "search unavailable") else none }

/-- A schedule of `main`: the search goroutine takes its first step, the file
and permission goroutines run to their end, then `main` runs to its end. -/
def lateSearchSchedule : List Tid :=
  [.search, .file, .permission, .main, .main, .main, .main, .main, .main, .main]

/-! ## Properties of the collection operations -/

theorem forall₂_map_right_self {δ : Type} (R : δ → δ → Prop) (f : δ → δ) (coll : List δ)
    (h : ∀ d, R d (f d)) : List.Forall₂ R coll (coll.map f) := by
  induction coll with
  | nil => exact List.Forall₂.nil
  | cons d ds ih => exact List.Forall₂.cons (h d) ih

theorem readRole_fst (env : PermissionEnv) (coll : List PermissionDoc) :
    (Permission.RunReadRoleUpdate env coll).1 = none ↔ env.readRoleErr = none := by
  unfold Permission.RunReadRoleUpdate UpdateMany
  cases env.readRoleErr <;> simp

theorem readRole_snd (env : PermissionEnv) (coll : List PermissionDoc) :
    (Permission.RunReadRoleUpdate env coll).2
      = (UpdateMany env.readRoleErr (PermissionCond.accepts filterReadRole)
          updateReadRole.apply coll).2 := by
  unfold Permission.RunReadRoleUpdate UpdateMany
  cases env.readRoleErr <;> rfl

theorem setFloat_fst (env : FileEnv) (coll : List FileDoc) :
    (File.RunSetFloat env coll).1 = none ↔ env.setFloatErr = none := by
  unfold File.RunSetFloat UpdateMany
  cases env.setFloatErr <;> simp

theorem setFloat_snd (env : FileEnv) (coll : List FileDoc) :
    (File.RunSetFloat env coll).2
      = (UpdateMany env.setFloatErr (FileCond.accepts filterFloat) updateFloat.apply coll).2 := by
  unfold File.RunSetFloat UpdateMany
  cases env.setFloatErr <;> rfl

/-! ## What the creator backfill leaves alone -/

theorem accepts_filterByID (permission : BSON) (x : PermissionDoc) :
    PermissionCond.accepts (filterByID permission) x
      = (x.ID == permission.ID && x.Creator.isNone) := by
  cases h : x.Creator <;> simp [PermissionCond.accepts, filterByID, PermissionCond.holds, h]

theorem updateFirst_related {δ : Type} (R : δ → δ → Prop) (accepts : δ → Bool) (apply : δ → δ)
    (hstep : ∀ a b, R a b → accepts b = true → R a (apply b)) :
    ∀ coll0 coll : List δ, List.Forall₂ R coll0 coll →
      List.Forall₂ R coll0 (updateFirst accepts apply coll) := by
  intro coll0 coll h
  induction h with
  | nil => exact List.Forall₂.nil
  | cons hab hrest ih =>
    rename_i a b l₁ l₂
    unfold updateFirst
    by_cases hacc : accepts b = true
    · rw [if_pos hacc]; exact List.Forall₂.cons (hstep a b hab hacc) hrest
    · rw [if_neg hacc]; exact List.Forall₂.cons hab ih

theorem findOneAndUpdate_related {δ : Type} (R : δ → δ → Prop) (accepts : δ → Bool)
    (apply : δ → δ) (hstep : ∀ a b, R a b → accepts b = true → R a (apply b))
    (callErr : Option String) (coll0 coll : List δ) (h : List.Forall₂ R coll0 coll) :
    List.Forall₂ R coll0 (FindOneAndUpdate callErr accepts apply coll).2 := by
  unfold FindOneAndUpdate
  cases callErr with
  | some e => exact h
  | none =>
    by_cases hany : coll.any accepts = true
    · simp only [hany, if_true]; exact updateFirst_related R accepts apply hstep coll0 coll h
    · simp only [hany]; exact h

/-- Any relation between the records before and after that survives setting
an absent creator survives the loop of `RunSetCreator`. -/
theorem setCreatorLoop_related (env : PermissionEnv) (R : PermissionDoc → PermissionDoc → Prop)
    (hstep : ∀ a b o, R a b → b.Creator = none → R a { b with Creator := some o })
    (permissions : List BSON) :
    ∀ (n : Nat) (coll0 coll : List PermissionDoc), List.Forall₂ R coll0 coll →
      List.Forall₂ R coll0 (setCreatorLoop env n permissions coll).coll := by
  induction permissions with
  | nil => intro n coll0 coll h; exact h
  | cons permission rest ih =>
    intro n coll0 coll h
    unfold setCreatorLoop
    cases hget : env.GetFileByID n permission.FileID with
    | error err => exact h
    | ok file =>
      have hres : List.Forall₂ R coll0
          (FindOneAndUpdate (env.findOneAndUpdateErr n)
            (PermissionCond.accepts (filterByID permission)) (updateCreator file).apply coll).2 := by
        apply findOneAndUpdate_related R _ _ _ _ coll0 coll h
        intro a b hab hacc
        rw [accepts_filterByID] at hacc
        have hb : b.Creator = none := by
          cases hc : b.Creator with
          | none => rfl
          | some c => simp [hc] at hacc
        exact hstep a b file.GetOwnerID hab hb
      simp only
      split
      · split
        · exact hres
        · exact ih (n + 1) coll0 _ hres
      · exact ih (n + 1) coll0 _ hres

theorem runSetCreator_related (env : PermissionEnv) (R : PermissionDoc → PermissionDoc → Prop)
    (hrefl : ∀ a, R a a)
    (hstep : ∀ a b o, R a b → b.Creator = none → R a { b with Creator := some o })
    (coll : List PermissionDoc) :
    List.Forall₂ R coll (Permission.RunSetCreator env coll).coll := by
  have hself : List.Forall₂ R coll coll := List.forall₂_same.2 (fun x _ => hrefl x)
  unfold Permission.RunSetCreator
  split
  · exact hself
  · split
    · exact hself
    · split
      · exact hself
      · exact setCreatorLoop_related env R hstep _ 0 coll coll hself

/-! ## Role renumbering -/

theorem readRole_ok_eq (env : PermissionEnv) (coll : List PermissionDoc)
    (hnone : env.readRoleErr = none) :
    (Permission.RunReadRoleUpdate env coll).2
      = coll.map (fun d => if PermissionCond.accepts filterReadRole d
          then updateReadRole.apply d else d) := by
  rw [readRole_snd, hnone]; rfl

theorem readRole_step (d : PermissionDoc) :
    ((if PermissionCond.accepts filterReadRole d then updateReadRole.apply d else d).Role
        = if d.Role = 3 then 2 else d.Role) ∧
    (if PermissionCond.accepts filterReadRole d then updateReadRole.apply d else d).ID = d.ID ∧
    (if PermissionCond.accepts filterReadRole d then updateReadRole.apply d else d).FileID
      = d.FileID ∧
    (if PermissionCond.accepts filterReadRole d then updateReadRole.apply d else d).UserID
      = d.UserID ∧
    (if PermissionCond.accepts filterReadRole d then updateReadRole.apply d else d).Creator
      = d.Creator := by
  by_cases h3 : d.Role = 3
  · simp [PermissionCond.accepts, filterReadRole, PermissionCond.holds, updateReadRole,
      PermissionUpdate.apply, h3]
  · simp [PermissionCond.accepts, filterReadRole, PermissionCond.holds, h3]

/-- C1: after a successful `RunReadRoleUpdate` the collection holds the same
records in the same order (none added, none removed); a record whose role was
3 has role 2, a record with any other role is as it was, and the identifier,
file identifier, user identifier and creator of every record are as before.
Inside `Permission.Run`, whichever of the two sub-tasks finishes first, the
roles, identifiers, file identifiers and user identifiers at the end are
those the renumbering alone leaves. -/
theorem read_role_renumbering (env : PermissionEnv) (coll : List PermissionDoc)
    (hok : (Permission.RunReadRoleUpdate env coll).1 = none) :
    (Permission.RunReadRoleUpdate env coll).2.length = coll.length ∧
    List.Forall₂
      (fun before after =>
        (before.Role = 3 → after.Role = 2) ∧
        (before.Role ≠ 3 → after = before) ∧
        after.ID = before.ID ∧ after.FileID = before.FileID ∧
        after.UserID = before.UserID ∧ after.Creator = before.Creator)
      coll (Permission.RunReadRoleUpdate env coll).2 ∧
    ∀ creatorFirst : Bool,
      List.Forall₂
        (fun before after =>
          (before.Role = 3 → after.Role = 2) ∧
          (before.Role ≠ 3 → after.Role = before.Role) ∧
          after.ID = before.ID ∧ after.FileID = before.FileID ∧ after.UserID = before.UserID)
        coll (Permission.Run env creatorFirst coll).store := by
  have hnone : env.readRoleErr = none := (readRole_fst env coll).1 hok
  refine ⟨?_, ?_, ?_⟩
  · rw [readRole_ok_eq env coll hnone]; simp
  · rw [readRole_ok_eq env coll hnone]
    refine forall₂_map_right_self _ _ _ ?_
    intro d
    by_cases h3 : d.Role = 3
    · simp [PermissionCond.accepts, filterReadRole, PermissionCond.holds, updateReadRole,
        PermissionUpdate.apply, h3]
    · simp [PermissionCond.accepts, filterReadRole, PermissionCond.holds, h3]
  · intro creatorFirst
    cases creatorFirst with
    | true =>
      have hS := runSetCreator_related env
        (fun a b => b.Role = a.Role ∧ b.ID = a.ID ∧ b.FileID = a.FileID ∧ b.UserID = a.UserID)
        (fun _ => ⟨rfl, rfl, rfl, rfl⟩) (fun _ _ _ hab _ => hab) coll
      simp only [Permission.Run, if_true]
      rw [readRole_ok_eq env _ hnone, List.forall₂_map_right_iff]
      refine hS.imp ?_
      intro a b hab
      obtain ⟨hr, hi, hf, hu, -⟩ := readRole_step b
      rw [hr, hi, hf, hu, hab.1, hab.2.1, hab.2.2.1, hab.2.2.2]
      refine ⟨fun h3 => by simp [h3], fun h3 => by simp [h3], rfl, rfl, rfl⟩
    | false =>
      have hS := runSetCreator_related env
        (fun a b => b.Role = a.Role ∧ b.ID = a.ID ∧ b.FileID = a.FileID ∧ b.UserID = a.UserID)
        (fun _ => ⟨rfl, rfl, rfl, rfl⟩) (fun _ _ _ hab _ => hab)
        (Permission.RunReadRoleUpdate env coll).2
      simp only [Permission.Run, Bool.false_eq_true, if_false]
      rw [readRole_ok_eq env coll hnone, List.forall₂_map_left_iff] at hS
      rw [readRole_ok_eq env coll hnone]
      refine hS.imp ?_
      intro a b hab
      obtain ⟨hr, hi, hf, hu, -⟩ := readRole_step a
      rw [hab.1, hab.2.1, hab.2.2.1, hab.2.2.2, hr, hi, hf, hu]
      refine ⟨fun h3 => by simp [h3], fun h3 => by simp [h3], rfl, rfl, rfl⟩

/-! ## Flag backfill -/

theorem setFloat_ok_eq (env : FileEnv) (coll : List FileDoc)
    (hok : (File.RunSetFloat env coll).1 = none) :
    (File.RunSetFloat env coll).2
      = coll.map (fun d => if FileCond.accepts filterFloat d then updateFloat.apply d else d) := by
  have hnone : env.setFloatErr = none := (setFloat_fst env coll).1 hok
  rw [setFloat_snd, hnone]; rfl

theorem filterFloat_accepts (d : FileDoc) :
    FileCond.accepts filterFloat d = d.Float.isNone := by
  cases h : d.Float <;> simp [FileCond.accepts, filterFloat, FileCond.holds, h]

/-- C4: after a successful `RunSetFloat` the collection holds the same records
in the same order (none added, none removed); every record has a float value,
which is false where the field was absent and the value it already held
otherwise, and no other field of any record differs. -/
theorem set_float_backfill (env : FileEnv) (coll : List FileDoc)
    (hok : (File.RunSetFloat env coll).1 = none) :
    (File.RunSetFloat env coll).2.length = coll.length ∧
    List.Forall₂
      (fun before after =>
        (∃ b : Bool, after.Float = some b) ∧
        (before.Float = none → after.Float = some false) ∧
        (∀ b, before.Float = some b → after.Float = some b) ∧
        after = { before with Float := after.Float })
      coll (File.RunSetFloat env coll).2 := by
  rw [setFloat_ok_eq env coll hok]
  refine ⟨by simp, forall₂_map_right_self _ _ _ ?_⟩
  intro d
  rw [filterFloat_accepts]
  cases h : d.Float with
  | none => simp [updateFloat, FileUpdate.apply, h]
  | some b =>
    simp only [h, Option.isNone_some, Bool.false_eq_true, if_false]
    refine ⟨⟨b, rfl⟩, by simp, fun _ hb => hb, ?_⟩
    cases d
    simp_all

/-- C5: once `RunSetFloat` has succeeded, its filter accepts no record of the
collection, and a second run, whatever the database answers, leaves every
record exactly as the first run left it. -/
theorem set_float_idempotent (env : FileEnv) (coll : List FileDoc)
    (hok : (File.RunSetFloat env coll).1 = none) :
    (∀ d ∈ (File.RunSetFloat env coll).2, FileCond.accepts filterFloat d = false) ∧
    ∀ env2 : FileEnv,
      (File.RunSetFloat env2 (File.RunSetFloat env coll).2).2 = (File.RunSetFloat env coll).2 := by
  have hnone : ∀ d ∈ (File.RunSetFloat env coll).2, FileCond.accepts filterFloat d = false := by
    rw [setFloat_ok_eq env coll hok]
    intro d hd
    obtain ⟨d0, -, rfl⟩ := List.mem_map.1 hd
    rw [filterFloat_accepts]
    cases h : d0.Float with
    | none => simp [filterFloat_accepts, updateFloat, FileUpdate.apply, h]
    | some b => simp [filterFloat_accepts, h]
  refine ⟨hnone, fun env2 => ?_⟩
  rw [setFloat_snd]
  cases env2.setFloatErr with
  | some e => rfl
  | none =>
    show List.map _ _ = _
    conv_rhs => rw [← List.map_id (File.RunSetFloat env coll).2]
    apply List.map_congr_left
    intro d hd
    simp [hnone d hd]

/-! ## Search projection -/

theorem hexDigit_injective : ∀ a b : Fin 16, hexDigit a.val = hexDigit b.val → a = b := by
  decide

theorem hexPair_injective (b c : Fin 256)
    (h : [hexDigit (b.val / 16), hexDigit (b.val % 16)]
      = [hexDigit (c.val / 16), hexDigit (c.val % 16)]) : b = c := by
  simp only [List.cons.injEq, and_true] at h
  have hb := b.isLt
  have hc := c.isLt
  have h1 := hexDigit_injective ⟨b.val / 16, by omega⟩ ⟨c.val / 16, by omega⟩ h.1
  have h2 := hexDigit_injective ⟨b.val % 16, by omega⟩ ⟨c.val % 16, by omega⟩ h.2
  simp only [Fin.mk.injEq] at h1 h2
  apply Fin.ext
  omega

/-- The hex form determines the ObjectID. -/
theorem hex_injective (a b : ObjectID) (h : a.Hex = b.Hex) : a = b := by
  have key : ∀ xs ys : List (Fin 256),
      xs.flatMap (fun b => [hexDigit (b.val / 16), hexDigit (b.val % 16)])
        = ys.flatMap (fun b => [hexDigit (b.val / 16), hexDigit (b.val % 16)]) → xs = ys := by
    intro xs
    induction xs with
    | nil =>
      intro ys hy
      cases ys with
      | nil => rfl
      | cons y ys => simp [List.flatMap_cons] at hy
    | cons x xs ih =>
      intro ys hy
      cases ys with
      | nil => simp [List.flatMap_cons] at hy
      | cons y ys =>
        simp only [List.flatMap_cons, List.cons_append, List.nil_append, List.cons.injEq] at hy
        obtain ⟨h1, h2, h3⟩ := hy
        rw [hexPair_injective x y (by simp [h1, h2]), ih ys h3]
  cases a with
  | mk xs =>
    cases b with
    | mk ys =>
      have h' := congrArg String.data h
      rw [key xs ys h']

/-- C6: the payload built for a file record has the location "parent P",
under the hex form of P and of no other identifier, when the record has
parent P, and has no location set (the record is a root) when the record has
no parent; it never has both. -/
theorem search_payload_location (d : FileDoc) :
    match d.Parent with
    | some P =>
      (searchFile (FileBSON.decode d)).FileOrId = some (.File_Parent P.Hex) ∧
      (searchFile (FileBSON.decode d)).FileOrId ≠ none ∧
      ∀ Q : ObjectID,
        (searchFile (FileBSON.decode d)).FileOrId = some (.File_Parent Q.Hex) → Q = P
    | none =>
      (searchFile (FileBSON.decode d)).FileOrId = none ∧
      ∀ p, (searchFile (FileBSON.decode d)).FileOrId ≠ some (.File_Parent p) := by
  cases h : d.Parent with
  | none => simp [searchFile, FileBSON.decode, SpbFile.FileOrId, h]
  | some P =>
    refine ⟨by simp [searchFile, FileBSON.decode, SpbFile.FileOrId, h],
      by simp [searchFile, FileBSON.decode, SpbFile.FileOrId, h], ?_⟩
    intro Q hQ
    simp only [searchFile, FileBSON.decode, SpbFile.FileOrId, h, Option.some.injEq,
      FileOrId.File_Parent.injEq] at hQ
    exact hex_injective Q P hQ.symm

/-! ## Search resync -/

theorem decodeAll_ok {δ β : Type} (decode : δ → β) (decodeErr : Nat → Option Err)
    (h : ∀ n, decodeErr n = none) (n : Nat) (coll : List δ) :
    decodeAll decode decodeErr n coll = .ok (coll.map decode) := by
  induction coll generalizing n with
  | nil => rfl
  | cons d ds ih => simp [decodeAll, h n, ih (n + 1)]

theorem createLoop_failure (env : SearchEnv) (files : List FileBSON) :
    ∀ (n k : Nat) (p : SpbFile) (e : Err),
      (files.map searchFile)[k]? = some p → env.CreateFile (n + k) p = some e →
      (∀ j q, j < k → (files.map searchFile)[j]? = some q → env.CreateFile (n + j) q = none) →
      (createLoop env n files).created = (files.map searchFile).take (k + 1) ∧
      (createLoop env n files).sent = [e] := by
  induction files with
  | nil => intro n k p e hp; simp at hp
  | cons file rest ih =>
    intro n k p e hp he hbefore
    cases k with
    | zero =>
      simp only [List.map_cons, List.getElem?_cons_zero, Option.some.injEq] at hp
      subst hp
      simp only [Nat.add_zero] at he
      simp [createLoop, he]
    | succ k =>
      have h0 : env.CreateFile n (searchFile file) = none := by
        have := hbefore 0 (searchFile file) (Nat.succ_pos k) (by simp)
        simpa using this
      simp only [List.map_cons, List.getElem?_cons_succ] at hp
      have hrec := ih (n + 1) k p e hp (by rw [Nat.add_assoc, Nat.add_comm 1 k]; exact he)
        (fun j q hj hq => by
          have := hbefore (j + 1) q (Nat.succ_lt_succ hj) (by simpa using hq)
          rw [Nat.add_assoc, Nat.add_comm 1 j]; exact this)
      simp [createLoop, h0, hrec.1, hrec.2]

theorem createLoop_success (env : SearchEnv) (files : List FileBSON) :
    ∀ n : Nat,
      (∀ j q, (files.map searchFile)[j]? = some q → env.CreateFile (n + j) q = none) →
      (createLoop env n files).created = files.map searchFile ∧
      (createLoop env n files).sent = [] := by
  induction files with
  | nil => intro n _; simp [createLoop]
  | cons file rest ih =>
    intro n hall
    have h0 : env.CreateFile n (searchFile file) = none := by
      have := hall 0 (searchFile file) (by simp)
      simpa using this
    have hrec := ih (n + 1) (fun j q hq => by
      have := hall (j + 1) q (by simpa using hq)
      rw [Nat.add_assoc, Nat.add_comm 1 j]; exact this)
    simp [createLoop, h0, hrec.1, hrec.2]

theorem search_run_loaded (env : SearchEnv) (coll : List FileDoc)
    (hfind : env.cursor.findErr = none) (hdecode : ∀ n, env.cursor.decodeErr n = none)
    (hcursor : env.cursor.cursorErr = none) :
    Search.Run env coll = createLoop env 0 (coll.map FileBSON.decode) := by
  simp [Search.Run, hfind, hcursor, decodeAll_ok FileBSON.decode _ hdecode]

/-- C7: when the snapshot of the file collection has been read, `Search.Run`
calls `CreateFile` on the payloads of the records in snapshot order, once
each, up to and including the first record whose call fails, and sends that
one error; when no call fails it has called `CreateFile` on the payload of
every record of the snapshot and sends no error. -/
theorem search_run_fail_fast (env : SearchEnv) (coll : List FileDoc)
    (hfind : env.cursor.findErr = none) (hdecode : ∀ n, env.cursor.decodeErr n = none)
    (hcursor : env.cursor.cursorErr = none) :
    (∀ (k : Nat) (p : SpbFile) (e : Err),
      (coll.map (fun d => searchFile (FileBSON.decode d)))[k]? = some p →
      env.CreateFile k p = some e →
      (∀ j q, j < k → (coll.map (fun d => searchFile (FileBSON.decode d)))[j]? = some q →
        env.CreateFile j q = none) →
      (Search.Run env coll).created
        = (coll.map (fun d => searchFile (FileBSON.decode d))).take (k + 1) ∧
      (Search.Run env coll).sent = [e]) ∧
    ((∀ j q, (coll.map (fun d => searchFile (FileBSON.decode d)))[j]? = some q →
        env.CreateFile j q = none) →
      (Search.Run env coll).created = coll.map (fun d => searchFile (FileBSON.decode d)) ∧
      (Search.Run env coll).sent = []) := by
  rw [search_run_loaded env coll hfind hdecode hcursor]
  have hmap : coll.map (fun d => searchFile (FileBSON.decode d))
      = (coll.map FileBSON.decode).map searchFile := by simp
  rw [hmap]
  constructor
  · intro k p e hp he hbefore
    exact createLoop_failure env _ 0 k p e hp (by simpa using he)
      (fun j q hj hq => by simpa using hbefore j q hj hq)
  · intro hall
    exact createLoop_success env _ 0 (fun j q hq => by simpa using hall j q hq)

/-! ## Creator backfill -/

/-- C2: whatever the cursor, the file lookups and the updates do, and whether
or not `RunSetCreator` returns an error, the collection holds the same records
in the same order afterwards, and every record that had a creator before the
run has the same creator after it. -/
theorem set_creator_never_overwrites (env : PermissionEnv) (coll : List PermissionDoc) :
    (Permission.RunSetCreator env coll).coll.length = coll.length ∧
    List.Forall₂
      (fun before after => ∀ c, before.Creator = some c → after.Creator = some c)
      coll (Permission.RunSetCreator env coll).coll := by
  have h := runSetCreator_related env
    (fun before after => ∀ c, before.Creator = some c → after.Creator = some c)
    (fun _ _ hc => hc)
    (fun a b o hab hb c hc => by rw [hab c hc] at hb; cases hb)
    coll
  exact ⟨h.length_eq.symm, h⟩

theorem updateFirst_skip {δ : Type} (accepts : δ → Bool) (apply : δ → δ) (pre rest : List δ)
    (hpre : ∀ x ∈ pre, accepts x = false) :
    updateFirst accepts apply (pre ++ rest) = pre ++ updateFirst accepts apply rest := by
  induction pre with
  | nil => rfl
  | cons x xs ih =>
    have hx : accepts x = false := hpre x (List.mem_cons_self x xs)
    have hxs : ∀ y ∈ xs, accepts y = false := fun y hy => hpre y (List.mem_cons_of_mem x hy)
    simp [updateFirst, hx, ih hxs]

theorem not_accepts_other (d x : PermissionDoc) (h : x.ID ≠ d.ID) :
    PermissionCond.accepts (filterByID (BSON.decode d)) x = false := by
  rw [accepts_filterByID]
  simp [BSON.decode, h]

/-- With distinct identifiers, the `FindOneAndUpdate` made for a record reaches
that record and no other: it sets the creator when the record has none, and
answers `mongo.ErrNoDocuments` otherwise. -/
theorem findOneAndUpdate_own (pre post : List PermissionDoc) (d : PermissionDoc) (file : FpbFile)
    (hnd : ((pre ++ d :: post).map (fun x => x.ID)).Nodup) :
    FindOneAndUpdate none (PermissionCond.accepts (filterByID (BSON.decode d)))
        (updateCreator file).apply (pre ++ d :: post)
      = (if d.Creator = none then none else some Err.ErrNoDocuments,
         pre ++ (if d.Creator = none then { d with Creator := some file.OwnerID } else d) :: post) := by
  have hids : ∀ x, x ∈ pre ∨ x ∈ post → x.ID ≠ d.ID := by
    intro x hx hEq
    rw [List.map_append, List.map_cons] at hnd
    have hnd' := List.nodup_append.1 hnd
    rcases hx with hx | hx
    · have h1 : x.ID ∈ pre.map (fun x => x.ID) := List.mem_map_of_mem _ hx
      have h2 : x.ID ∈ d.ID :: post.map (fun x => x.ID) := by rw [hEq]; exact List.mem_cons_self _ _
      exact hnd'.2.2 h1 h2
    · have h1 : x.ID ∈ post.map (fun x => x.ID) := List.mem_map_of_mem _ hx
      have := (List.nodup_cons.1 hnd'.2.1).1
      rw [← hEq] at this
      exact this h1
  have hpre : ∀ x ∈ pre, PermissionCond.accepts (filterByID (BSON.decode d)) x = false :=
    fun x hx => not_accepts_other d x (hids x (Or.inl hx))
  have hpost : ∀ x ∈ post, PermissionCond.accepts (filterByID (BSON.decode d)) x = false :=
    fun x hx => not_accepts_other d x (hids x (Or.inr hx))
  have hd : PermissionCond.accepts (filterByID (BSON.decode d)) d = d.Creator.isNone := by
    rw [accepts_filterByID]; simp [BSON.decode]
  have hanypre : pre.any (PermissionCond.accepts (filterByID (BSON.decode d))) = false := by
    rw [List.any_eq_false]; intro x hx; simp [hpre x hx]
  have hanypost : post.any (PermissionCond.accepts (filterByID (BSON.decode d))) = false := by
    rw [List.any_eq_false]; intro x hx; simp [hpost x hx]
  unfold FindOneAndUpdate
  simp only [List.any_append, List.any_cons, hanypre, hanypost, hd, Bool.false_or, Bool.or_false]
  cases hc : d.Creator with
  | none =>
    simp [updateFirst_skip _ _ pre _ hpre, updateFirst, hd, hc, updateCreator,
      PermissionUpdate.apply, FpbFile.GetOwnerID]
  | some c => simp

theorem setCreatorLoop_lookup_failed (env : PermissionEnv) (n : Nat) (permission : BSON)
    (rest : List BSON) (coll : List PermissionDoc) (err : Err)
    (hget : env.GetFileByID n permission.FileID = .error err) :
    setCreatorLoop env n (permission :: rest) coll
      = { err := some (Errorf ("failed getting file " ++ permission.FileID
            ++ " from File-Service: ") err),
          coll := coll,
          calls := [.lookup n permission.FileID none] } := by
  simp [setCreatorLoop, hget]

theorem setCreatorLoop_update_failed (env : PermissionEnv) (n : Nat) (permission : BSON)
    (rest : List BSON) (coll : List PermissionDoc) (file : FpbFile) (t : String)
    (hget : env.GetFileByID n permission.FileID = .ok file)
    (hcall : env.findOneAndUpdateErr n = some t) :
    setCreatorLoop env n (permission :: rest) coll
      = { err := some (Errorf ("failed setting creator for permissions " ++ permission.ID.render
            ++ " with ownerID " ++ file.GetOwnerID ++ ": ") (.msg t)),
          coll := coll,
          calls := [.lookup n permission.FileID (some file.GetOwnerID),
            .update n permission.ID file.GetOwnerID] } := by
  simp [setCreatorLoop, hget, hcall, FindOneAndUpdate]

theorem setCreatorLoop_continue (env : PermissionEnv) (pre post : List PermissionDoc)
    (d : PermissionDoc) (file : FpbFile)
    (hnd : ((pre ++ d :: post).map (fun x => x.ID)).Nodup)
    (hget : env.GetFileByID pre.length d.FileID = .ok file)
    (hcall : env.findOneAndUpdateErr pre.length = none) :
    setCreatorLoop env pre.length (BSON.decode d :: post.map BSON.decode) (pre ++ d :: post)
      = { setCreatorLoop env (pre.length + 1) (post.map BSON.decode)
            (pre ++ (if d.Creator = none then { d with Creator := some file.OwnerID } else d)
              :: post) with
          calls := [.lookup pre.length d.FileID (some file.OwnerID),
              .update pre.length d.ID file.OwnerID]
            ++ (setCreatorLoop env (pre.length + 1) (post.map BSON.decode)
              (pre ++ (if d.Creator = none then { d with Creator := some file.OwnerID } else d)
                :: post)).calls } := by
  have hget' : env.GetFileByID pre.length (BSON.decode d).FileID = .ok file := hget
  rw [setCreatorLoop]
  simp only [hget', hcall, findOneAndUpdate_own pre post d file hnd]
  cases hc : d.Creator <;> simp [BSON.decode, FpbFile.GetOwnerID]

/-- The loop of `RunSetCreator` started at position `pre.length` on a
collection with distinct identifiers, `pre` being the records already passed:
it leaves `pre` alone; when it ends without error every remaining record has
been looked up and backfilled; when a lookup failed at position `i`, the
records before `i` have been backfilled, the others are untouched, and no call
was made after that lookup. -/
theorem setCreatorLoop_spec (env : PermissionEnv) (docs : List PermissionDoc) :
    ∀ pre : List PermissionDoc, ((pre ++ docs).map (fun x => x.ID)).Nodup →
    ∃ docs' : List PermissionDoc,
      (setCreatorLoop env pre.length (docs.map BSON.decode) (pre ++ docs)).coll = pre ++ docs' ∧
      docs'.length = docs.length ∧
      (∀ m fid o, SetCreatorCall.lookup m fid o
          ∈ (setCreatorLoop env pre.length (docs.map BSON.decode) (pre ++ docs)).calls →
        pre.length ≤ m) ∧
      ((setCreatorLoop env pre.length (docs.map BSON.decode) (pre ++ docs)).err = none →
        ∀ j d, docs[j]? = some d →
          ∃ file, env.GetFileByID (pre.length + j) d.FileID = .ok file ∧
            docs'[j]? = some
              (if d.Creator = none then { d with Creator := some file.OwnerID } else d)) ∧
      (∀ i fid, SetCreatorCall.lookup i fid none
          ∈ (setCreatorLoop env pre.length (docs.map BSON.decode) (pre ++ docs)).calls →
        (setCreatorLoop env pre.length (docs.map BSON.decode) (pre ++ docs)).err ≠ none ∧
        (∀ m fid' o, SetCreatorCall.lookup m fid' o
            ∈ (setCreatorLoop env pre.length (docs.map BSON.decode) (pre ++ docs)).calls →
          m ≤ i) ∧
        (∀ m id o, SetCreatorCall.update m id o
            ∈ (setCreatorLoop env pre.length (docs.map BSON.decode) (pre ++ docs)).calls →
          m < i) ∧
        (∀ j, i ≤ pre.length + j → docs'[j]? = docs[j]?) ∧
        (∀ j d, pre.length + j < i → docs[j]? = some d →
          ∃ file, env.GetFileByID (pre.length + j) d.FileID = .ok file ∧
            docs'[j]? = some
              (if d.Creator = none then { d with Creator := some file.OwnerID } else d))) := by
  induction docs with
  | nil =>
    intro pre _
    exact ⟨[], by simp [setCreatorLoop], rfl, by simp [setCreatorLoop], by simp,
      by simp [setCreatorLoop]⟩
  | cons d ds ih =>
    intro pre hnd
    simp only [List.map_cons]
    cases hget : env.GetFileByID pre.length d.FileID with
    | error err =>
      have hget' : env.GetFileByID pre.length (BSON.decode d).FileID = .error err := hget
      rw [setCreatorLoop_lookup_failed env pre.length (BSON.decode d) _ _ err hget']
      refine ⟨d :: ds, rfl, rfl, ?_, ?_, ?_⟩
      · intro m fid o hm
        simp only [List.mem_singleton, SetCreatorCall.lookup.injEq] at hm
        omega
      · intro h; simp at h
      · intro i fid hi
        simp only [List.mem_singleton, SetCreatorCall.lookup.injEq] at hi
        obtain ⟨hi, -, -⟩ := hi
        subst hi
        refine ⟨by simp, ?_, ?_, fun _ _ => rfl, ?_⟩
        · intro m fid' o hm
          simp only [List.mem_singleton, SetCreatorCall.lookup.injEq] at hm
          omega
        · intro m id o hm
          simp at hm
        · intro j d' hj; omega
    | ok file =>
      have hget' : env.GetFileByID pre.length (BSON.decode d).FileID = .ok file := hget
      cases hcall : env.findOneAndUpdateErr pre.length with
      | some t =>
        rw [setCreatorLoop_update_failed env pre.length (BSON.decode d) _ _ file t hget' hcall]
        refine ⟨d :: ds, rfl, rfl, ?_, ?_, ?_⟩
        · intro m fid o hm
          simp at hm
          omega
        · intro h; simp at h
        · intro i fid hi
          simp at hi
      | none =>
        rw [setCreatorLoop_continue env pre ds d file hnd hget hcall]
        generalize hd1 : (if d.Creator = none then { d with Creator := some file.OwnerID } else d)
          = d1
        have hid : d1.ID = d.ID := by
          rw [← hd1]; split <;> rfl
        have e1 : (pre ++ [d1]).length = pre.length + 1 := by simp
        have e2 : pre ++ [d1] ++ ds = pre ++ d1 :: ds := by simp
        have hnd' : ((pre ++ [d1] ++ ds).map (fun x => x.ID)).Nodup := by
          rw [e2]
          simpa [hid] using hnd
        obtain ⟨docs'', hcoll, hlen, hlow, hsucc, hfail⟩ := ih (pre ++ [d1]) hnd'
        rw [e1, e2] at hcoll hlow hsucc hfail
        refine ⟨d1 :: docs'', ?_, ?_, ?_, ?_, ?_⟩
        · simp only [hcoll]; simp
        · simp [hlen]
        · intro m fid o hm
          simp only [List.mem_append, List.mem_cons, SetCreatorCall.lookup.injEq,
            List.mem_singleton, List.not_mem_nil, or_false, reduceCtorEq] at hm
          rcases hm with ⟨hm, -, -⟩ | hm
          · omega
          · have := hlow m fid o hm; omega
        · intro herr j d' hj
          cases j with
          | zero =>
            simp only [List.getElem?_cons_zero, Option.some.injEq] at hj
            subst hj
            exact ⟨file, hget, by simp [hd1]⟩
          | succ j =>
            simp only [List.getElem?_cons_succ] at hj
            obtain ⟨file', hf1, hf2⟩ := hsucc herr j d' hj
            refine ⟨file', ?_, by simpa using hf2⟩
            rw [← hf1]; congr 1; omega
        · intro i fid hi
          have hi' : SetCreatorCall.lookup i fid none
              ∈ (setCreatorLoop env (pre.length + 1) (ds.map BSON.decode)
                  (pre ++ d1 :: ds)).calls := by
            simpa using hi
          obtain ⟨herr, hlook, hupd, hsame, hbefore⟩ := hfail i fid hi'
          have hlt : pre.length + 1 ≤ i := hlow i fid none hi'
          refine ⟨herr, ?_, ?_, ?_, ?_⟩
          · intro m fid' o hm
            simp only [List.mem_append, List.mem_cons, SetCreatorCall.lookup.injEq,
              List.mem_singleton, List.not_mem_nil, or_false, reduceCtorEq] at hm
            rcases hm with ⟨hm, -, -⟩ | hm
            · omega
            · exact hlook m fid' o hm
          · intro m id o hm
            simp only [List.mem_append, List.mem_cons, SetCreatorCall.update.injEq,
              List.mem_singleton, List.not_mem_nil, or_false, reduceCtorEq, false_or] at hm
            rcases hm with ⟨hm, -, -⟩ | hm
            · omega
            · exact hupd m id o hm
          · intro j hj
            cases j with
            | zero => omega
            | succ j =>
              simp only [List.getElem?_cons_succ]
              exact hsame j (by omega)
          · intro j d' hj hd'
            cases j with
            | zero =>
              simp only [List.getElem?_cons_zero, Option.some.injEq] at hd'
              subst hd'
              exact ⟨file, hget, by simp [hd1]⟩
            | succ j =>
              simp only [List.getElem?_cons_succ] at hd'
              obtain ⟨file', hf1, hf2⟩ := hbefore j d' (by omega) hd'
              refine ⟨file', ?_, by simpa using hf2⟩
              rw [← hf1]; congr 1; omega


theorem decodeAll_eq_map {δ β : Type} (decode : δ → β) (decodeErr : Nat → Option Err)
    (coll : List δ) :
    ∀ (n : Nat) (bs : List β), decodeAll decode decodeErr n coll = .ok bs → bs = coll.map decode := by
  induction coll with
  | nil => intro n bs h; simp [decodeAll] at h; simp [← h]
  | cons d ds ih =>
    intro n bs h
    unfold decodeAll at h
    cases hn : decodeErr n with
    | some e => simp [hn] at h
    | none =>
      simp only [hn] at h
      cases hrec : decodeAll decode decodeErr (n + 1) ds with
      | error e => simp [hrec] at h
      | ok bs' =>
        simp only [hrec, Except.ok.injEq] at h
        rw [← h, ih (n + 1) bs' hrec]; rfl

/-- Either `RunSetCreator` stopped while loading the permissions, with an
error, no call made and the collection untouched, or it is the loop over the
decoded collection. -/
theorem runSetCreator_cases (env : PermissionEnv) (coll : List PermissionDoc) :
    ((Permission.RunSetCreator env coll).err ≠ none ∧
      (Permission.RunSetCreator env coll).calls = [] ∧
      (Permission.RunSetCreator env coll).coll = coll) ∨
    Permission.RunSetCreator env coll = setCreatorLoop env 0 (coll.map BSON.decode) coll := by
  unfold Permission.RunSetCreator
  cases env.cursor.findErr with
  | some e => left; simp
  | none =>
    cases hdec : decodeAll BSON.decode env.cursor.decodeErr 0 coll with
    | error e => left; simp
    | ok permissions =>
      cases env.cursor.cursorErr with
      | some e => left; simp
      | none =>
        right
        simp only
        rw [decodeAll_eq_map _ _ _ 0 permissions hdec]

/-- The calls of the loop of `RunSetCreator` do not depend on the collection:
while lookups succeed and updates do not fail the loop goes on to the next
permission, so it makes the first lookup that fails. -/
theorem setCreatorLoop_reaches (env : PermissionEnv) (permissions : List BSON) :
    ∀ (n : Nat) (coll : List PermissionDoc) (k : Nat) (p : BSON) (e : Err),
      permissions[k]? = some p →
      (∀ j q, j < k → permissions[j]? = some q →
        (∃ file, env.GetFileByID (n + j) q.FileID = .ok file) ∧
          env.findOneAndUpdateErr (n + j) = none) →
      env.GetFileByID (n + k) p.FileID = .error e →
      SetCreatorCall.lookup (n + k) p.FileID none ∈ (setCreatorLoop env n permissions coll).calls := by
  induction permissions with
  | nil => intro n coll k p e hp; simp at hp
  | cons q rest ih =>
    intro n coll k p e hp hbefore hfail
    cases k with
    | zero =>
      simp only [List.getElem?_cons_zero, Option.some.injEq] at hp
      subst hp
      rw [setCreatorLoop_lookup_failed env n q rest coll e (by simpa using hfail)]
      simp
    | succ k =>
      simp only [List.getElem?_cons_succ] at hp
      obtain ⟨⟨file, hfile⟩, hupd⟩ := hbefore 0 q (Nat.succ_pos k) (by simp)
      simp only [Nat.add_zero] at hfile hupd
      have hrec : ∀ coll', SetCreatorCall.lookup (n + (k + 1)) p.FileID none
          ∈ (setCreatorLoop env (n + 1) rest coll').calls := by
        intro coll'
        have := ih (n + 1) coll' k p e hp
          (fun j r hj hr => by
            have := hbefore (j + 1) r (Nat.succ_lt_succ hj) (by simpa using hr)
            rw [Nat.add_assoc, Nat.add_comm 1 j]; exact this)
          (by rw [Nat.add_assoc, Nat.add_comm 1 k]; exact hfail)
        rw [Nat.add_assoc, Nat.add_comm 1 k] at this; exact this
      rw [setCreatorLoop]
      simp only [hfile, hupd]
      split
      · split
        · rename_i resErr hres hne
          simp only [FindOneAndUpdate] at hres
          split at hres
          · cases hres
          · simp only [Option.some.injEq] at hres
            exact absurd hres.symm hne
        · simp only [List.mem_append]; exact Or.inr (hrec _)
      · simp only [List.mem_append]; exact Or.inr (hrec _)

/-- When the permissions have been loaded, every lookup before position `i`
succeeds, no update before position `i` fails, and the lookup for the record
at position `i` fails, the run makes that failing lookup. -/
theorem runSetCreator_reaches (env : PermissionEnv) (coll : List PermissionDoc)
    (hfind : env.cursor.findErr = none) (hdecode : ∀ n, env.cursor.decodeErr n = none)
    (hcursor : env.cursor.cursorErr = none) (i : Nat) (d : PermissionDoc) (e : Err)
    (hd : coll[i]? = some d)
    (hbefore : ∀ j q, j < i → coll[j]? = some q →
      (∃ file, env.GetFileByID j q.FileID = .ok file) ∧ env.findOneAndUpdateErr j = none)
    (hfail : env.GetFileByID i d.FileID = .error e) :
    SetCreatorCall.lookup i d.FileID none ∈ (Permission.RunSetCreator env coll).calls := by
  have hrun : Permission.RunSetCreator env coll
      = setCreatorLoop env 0 (coll.map BSON.decode) coll := by
    simp [Permission.RunSetCreator, hfind, hcursor, decodeAll_ok BSON.decode _ hdecode]
  rw [hrun]
  have := setCreatorLoop_reaches env (coll.map BSON.decode) 0 coll i (BSON.decode d) e
    (by simp [hd])
    (fun j q hj hq => by
      simp only [List.getElem?_map, Option.map_eq_some'] at hq
      obtain ⟨q0, hq0, rfl⟩ := hq
      simpa [BSON.decode] using hbefore j q0 hj hq0)
    (by simpa [BSON.decode] using hfail)
  simpa [BSON.decode] using this

/-- C3: on a collection with distinct identifiers, when `RunSetCreator`
returns without error, every record that had no creator has as creator the
owner that the lookup made for it (the call for its position and its file
identifier) returned, and every record that had a creator is as it was. -/
theorem set_creator_backfills (env : PermissionEnv) (coll : List PermissionDoc)
    (hids : (coll.map (fun d => d.ID)).Nodup)
    (hok : (Permission.RunSetCreator env coll).err = none) :
    ∀ (i : Nat) (d : PermissionDoc), coll[i]? = some d →
      ∃ file, env.GetFileByID i d.FileID = .ok file ∧
        (d.Creator = none →
          (Permission.RunSetCreator env coll).coll[i]?
            = some { d with Creator := some file.OwnerID }) ∧
        (d.Creator ≠ none → (Permission.RunSetCreator env coll).coll[i]? = some d) := by
  intro i d hd
  rcases runSetCreator_cases env coll with ⟨herr, -, -⟩ | hloop
  · exact absurd hok herr
  · rw [hloop] at hok ⊢
    obtain ⟨docs', hcoll, -, -, hsucc, -⟩ := setCreatorLoop_spec env coll [] (by simpa using hids)
    simp only [List.length_nil, List.nil_append, Nat.zero_add] at hcoll hsucc
    obtain ⟨file, hfile, hdoc⟩ := hsucc hok i d hd
    refine ⟨file, hfile, ?_, ?_⟩
    · intro hc; rw [hcoll, hdoc, if_pos hc]
    · intro hc; rw [hcoll, hdoc, if_neg hc]

/-- C8: on a collection with distinct identifiers, when the lookup that
`RunSetCreator` makes for the record at position `i` fails, `RunSetCreator`
returns an error; it makes no lookup for a later record and no update for the
record at `i` or a later one; the records from position `i` on are as they
were; and every record before `i` has been looked up with success and is
backfilled as a run without error leaves it: with the owner returned for it
as creator when it had none, as it was otherwise. -/
theorem set_creator_fail_fast (env : PermissionEnv) (coll : List PermissionDoc)
    (hids : (coll.map (fun d => d.ID)).Nodup) (i : Nat) (fid : String)
    (hfail : SetCreatorCall.lookup i fid none ∈ (Permission.RunSetCreator env coll).calls) :
    (Permission.RunSetCreator env coll).err ≠ none ∧
    (∀ m fid' o, SetCreatorCall.lookup m fid' o ∈ (Permission.RunSetCreator env coll).calls →
      m ≤ i) ∧
    (∀ m id o, SetCreatorCall.update m id o ∈ (Permission.RunSetCreator env coll).calls →
      m < i) ∧
    (∀ j, i ≤ j → (Permission.RunSetCreator env coll).coll[j]? = coll[j]?) ∧
    (∀ j d, j < i → coll[j]? = some d →
      ∃ file, env.GetFileByID j d.FileID = .ok file ∧
        (Permission.RunSetCreator env coll).coll[j]?
          = some (if d.Creator = none then { d with Creator := some file.OwnerID } else d)) := by
  rcases runSetCreator_cases env coll with ⟨-, hcalls, -⟩ | hloop
  · rw [hcalls] at hfail; simp at hfail
  · rw [hloop] at hfail ⊢
    obtain ⟨docs', hcoll, -, -, -, hspec⟩ := setCreatorLoop_spec env coll [] (by simpa using hids)
    simp only [List.length_nil, List.nil_append, Nat.zero_add] at hcoll hspec
    obtain ⟨herr, hlook, hupd, hsame, hbefore⟩ := hspec i fid hfail
    rw [hcoll]
    exact ⟨herr, hlook, hupd, hsame, hbefore⟩


/-! ## The error channel -/

theorem sendIfErr_length (err : Option Err) : (sendIfErr err).length ≤ 1 := by
  cases err <;> simp [sendIfErr]

theorem file_run_sent_length (env : FileEnv) (indexFirst : Bool) (store : FileStore) :
    (File.Run env indexFirst store).sent.length ≤ 2 := by
  have h1 := sendIfErr_length (File.RunSetFloat env store.files).1
  have h2 := sendIfErr_length (File.RunUpdateNameParentOwnerIndex env store.indexes).1
  unfold File.Run
  cases indexFirst <;> simp <;> omega

theorem permission_run_sent_length (env : PermissionEnv) (creatorFirst : Bool)
    (coll : List PermissionDoc) :
    (Permission.Run env creatorFirst coll).sent.length ≤ 2 := by
  unfold Permission.Run
  cases creatorFirst
  · have h1 := sendIfErr_length (Permission.RunReadRoleUpdate env coll).1
    have h2 := sendIfErr_length
      (Permission.RunSetCreator env (Permission.RunReadRoleUpdate env coll).2).err
    simp; omega
  · have h1 := sendIfErr_length (Permission.RunSetCreator env coll).err
    have h2 := sendIfErr_length
      (Permission.RunReadRoleUpdate env (Permission.RunSetCreator env coll).coll).1
    simp; omega

theorem createLoop_sent_length (env : SearchEnv) (files : List FileBSON) :
    ∀ n, (createLoop env n files).sent.length ≤ 1 := by
  induction files with
  | nil => intro n; simp [createLoop]
  | cons file rest ih =>
    intro n
    unfold createLoop
    cases env.CreateFile n (searchFile file) with
    | some err => simp
    | none => simpa using ih (n + 1)

theorem search_run_sent_length (env : SearchEnv) (coll : List FileDoc) :
    (Search.Run env coll).sent.length ≤ 1 := by
  unfold Search.Run
  split
  · simp
  · split
    · simp
    · split
      · simp
      · exact createLoop_sent_length env _ 0

theorem stepDeferred_outstanding (j j' : Job) (errc errc' : List Err) (wg wg' : Nat)
    (h : stepDeferred j errc wg = some (j', errc', wg')) :
    errc'.length + j'.pending.length ≤ errc.length + j.pending.length := by
  unfold stepDeferred at h
  split at h
  · split at h
    · simp only [Option.some.injEq, Prod.mk.injEq] at h
      obtain ⟨rfl, rfl, -⟩ := h
      simp_all
      omega
    · cases h
  · simp only [Option.some.injEq, Prod.mk.injEq] at h
    obtain ⟨rfl, rfl, -⟩ := h
    simp_all
  · cases h

theorem stepSearch_outstanding (j j' : Job) (errc errc' : List Err) (wg wg' : Nat)
    (h : stepSearch j errc wg = some (j', errc', wg')) :
    errc'.length + j'.pending.length ≤ errc.length + j.pending.length := by
  unfold stepSearch at h
  split at h
  · simp only [Option.some.injEq, Prod.mk.injEq] at h
    obtain ⟨rfl, rfl, -⟩ := h
    simp
  · split at h
    · simp only [Option.some.injEq, Prod.mk.injEq] at h
      obtain ⟨rfl, rfl, -⟩ := h
      simp_all
      omega
    · cases h
  · simp only [Option.some.injEq, Prod.mk.injEq] at h
    obtain ⟨rfl, rfl, -⟩ := h
    simp_all
  · cases h

/-- No step of any goroutine raises the number of errors that sit in the
channel or are still to be sent. -/
theorem step_outstanding (t : Tid) (s s' : Sys) (h : step t s = some s') :
    s'.outstanding ≤ s.outstanding := by
  unfold step at h
  split at h
  · cases h
  · cases t with
    | file =>
      simp only [Option.map_eq_some'] at h
      obtain ⟨⟨j', errc', wg'⟩, hstep, rfl⟩ := h
      have := stepDeferred_outstanding _ _ _ _ _ _ hstep
      simp only [Sys.outstanding]; omega
    | permission =>
      simp only [Option.map_eq_some'] at h
      obtain ⟨⟨j', errc', wg'⟩, hstep, rfl⟩ := h
      have := stepDeferred_outstanding _ _ _ _ _ _ hstep
      simp only [Sys.outstanding]; omega
    | search =>
      simp only [Option.map_eq_some'] at h
      obtain ⟨⟨j', errc', wg'⟩, hstep, rfl⟩ := h
      have := stepSearch_outstanding _ _ _ _ _ _ hstep
      simp only [Sys.outstanding]; omega
    | main =>
      simp only at h
      split at h
      · split at h
        · cases h; exact Nat.le_refl _
        · cases h
      · split at h
        · split at h
          · cases h; simp_all [Sys.outstanding]
          · cases h; simp [Sys.outstanding]
        · cases h; simp [Sys.outstanding]
      · cases h

theorem exec_outstanding (schedule : List Tid) :
    ∀ s s' : Sys, exec schedule s = some s' → s'.outstanding ≤ s.outstanding := by
  induction schedule with
  | nil => intro s s' h; simp only [exec, Option.some.injEq] at h; subst h; exact Nat.le_refl _
  | cons t ts ih =>
    intro s s' h
    unfold exec at h
    cases hstep : step t s with
    | none => simp [hstep] at h
    | some s1 =>
      simp only [hstep] at h
      exact Nat.le_trans (ih s1 s' h) (step_outstanding t s s1 hstep)

theorem not_blocked_of_outstanding (s : Sys) (h : s.outstanding ≤ errcCap) (t : Tid) :
    blockedOnSend t s = false := by
  unfold Sys.outstanding at h
  cases t with
  | main => rfl
  | file =>
    simp only [blockedOnSend]
    cases hp : s.file.pending with
    | nil => simp
    | cons e es => rw [hp] at h; simp at h ⊢; intro _; omega
  | permission =>
    simp only [blockedOnSend]
    cases hp : s.permission.pending with
    | nil => simp
    | cons e es => rw [hp] at h; simp at h ⊢; intro _; omega
  | search =>
    simp only [blockedOnSend]
    cases hp : s.search.pending with
    | nil => simp
    | cons e es => rw [hp] at h; simp at h ⊢; intro _; omega

/-- C9: `File.Run` sends at most 2 errors, `Permission.Run` at most 2 and
`Search.Run` at most 1, whatever the database and the remote calls answer, so
at most 5 in one run; and under every schedule of the goroutines of `main` the
channel of capacity 5 never holds more than 5 errors and no goroutine is ever
stuck at a send on it. -/
theorem error_channel_never_full
    (fenv : FileEnv) (indexFirst : Bool) (store : FileStore)
    (penv : PermissionEnv) (creatorFirst : Bool) (permissions : List PermissionDoc)
    (senv : SearchEnv) (snapshot : List FileDoc) :
    (File.Run fenv indexFirst store).sent.length ≤ 2 ∧
    (Permission.Run penv creatorFirst permissions).sent.length ≤ 2 ∧
    (Search.Run senv snapshot).sent.length ≤ 1 ∧
    (File.Run fenv indexFirst store).sent.length
      + (Permission.Run penv creatorFirst permissions).sent.length
      + (Search.Run senv snapshot).sent.length ≤ errcCap ∧
    ∀ (schedule : List Tid) (s : Sys),
      exec schedule (Sys.init (File.Run fenv indexFirst store).sent
        (Permission.Run penv creatorFirst permissions).sent (Search.Run senv snapshot).sent)
        = some s →
      s.errc.length ≤ errcCap ∧ ∀ t, blockedOnSend t s = false := by
  have hf := file_run_sent_length fenv indexFirst store
  have hp := permission_run_sent_length penv creatorFirst permissions
  have hs := search_run_sent_length senv snapshot
  refine ⟨hf, hp, hs, by unfold errcCap; omega, ?_⟩
  intro schedule s hexec
  have hout := exec_outstanding schedule _ s hexec
  have hinit : (Sys.init (File.Run fenv indexFirst store).sent
      (Permission.Run penv creatorFirst permissions).sent
      (Search.Run senv snapshot).sent).outstanding ≤ errcCap := by
    simp only [Sys.outstanding, Sys.init, List.length_nil, errcCap]; omega
  have hle : s.outstanding ≤ errcCap := Nat.le_trans hout hinit
  refine ⟨?_, not_blocked_of_outstanding s hle⟩
  unfold Sys.outstanding at hle; omega


/-! ## The wait of `main` -/

/-- What `wg` counts: the file and the permission goroutine until they have
returned, the search goroutine until its first step. -/
theorem step_waitgroup (t : Tid) (s s' : Sys) (h : step t s = some s')
    (hinv : s.file.pc ≠ .start ∧ s.permission.pc ≠ .start ∧
      s.wg = (if s.file.pc = .returned then 0 else 1)
        + (if s.permission.pc = .returned then 0 else 1)
        + (if s.search.pc = .start then 1 else 0) ∧
      (s.main ≠ .waiting → s.file.pc = .returned ∧ s.permission.pc = .returned)) :
    s'.file.pc ≠ .start ∧ s'.permission.pc ≠ .start ∧
      s'.wg = (if s'.file.pc = .returned then 0 else 1)
        + (if s'.permission.pc = .returned then 0 else 1)
        + (if s'.search.pc = .start then 1 else 0) ∧
      (s'.main ≠ .waiting → s'.file.pc = .returned ∧ s'.permission.pc = .returned) := by
  obtain ⟨hf, hp, hwg, hmain⟩ := hinv
  unfold step at h
  split at h
  · cases h
  · cases t with
    | file =>
      simp only [Option.map_eq_some'] at h
      obtain ⟨⟨j', errc', wg'⟩, hstep, rfl⟩ := h
      unfold stepDeferred at hstep
      split at hstep
      · split at hstep
        · simp only [Option.some.injEq, Prod.mk.injEq] at hstep
          obtain ⟨rfl, rfl, rfl⟩ := hstep
          simp_all
        · cases hstep
      · simp only [Option.some.injEq, Prod.mk.injEq] at hstep
        obtain ⟨rfl, rfl, rfl⟩ := hstep
        simp_all; omega
      · cases hstep
    | permission =>
      simp only [Option.map_eq_some'] at h
      obtain ⟨⟨j', errc', wg'⟩, hstep, rfl⟩ := h
      unfold stepDeferred at hstep
      split at hstep
      · split at hstep
        · simp only [Option.some.injEq, Prod.mk.injEq] at hstep
          obtain ⟨rfl, rfl, rfl⟩ := hstep
          simp_all
        · cases hstep
      · simp only [Option.some.injEq, Prod.mk.injEq] at hstep
        obtain ⟨rfl, rfl, rfl⟩ := hstep
        simp_all
      · cases hstep
    | search =>
      simp only [Option.map_eq_some'] at h
      obtain ⟨⟨j', errc', wg'⟩, hstep, rfl⟩ := h
      unfold stepSearch at hstep
      split at hstep
      · simp only [Option.some.injEq, Prod.mk.injEq] at hstep
        obtain ⟨rfl, rfl, rfl⟩ := hstep
        simp_all
      · split at hstep
        · simp only [Option.some.injEq, Prod.mk.injEq] at hstep
          obtain ⟨rfl, rfl, rfl⟩ := hstep
          simp_all
        · cases hstep
      · simp only [Option.some.injEq, Prod.mk.injEq] at hstep
        obtain ⟨rfl, rfl, rfl⟩ := hstep
        simp_all
      · cases hstep
    | main =>
      simp only at h
      split at h
      · split at h
        · cases h
          rename_i hw hz
          refine ⟨hf, hp, hwg, fun _ => ?_⟩
          rw [hz] at hwg
          constructor
          · by_contra hc
            have hc' : ¬ s.file.pc = .returned := hc
            rw [if_neg hc'] at hwg; omega
          · by_contra hc
            have hc' : ¬ s.permission.pc = .returned := hc
            rw [if_neg hc'] at hwg; omega
        · cases h
      · rename_i i hd
        have hm := hmain (by rw [hd]; simp)
        split at h
        · split at h
          · cases h; exact ⟨hf, hp, hwg, fun _ => hm⟩
          · cases h; exact ⟨hf, hp, hwg, fun _ => hm⟩
        · cases h; exact ⟨hf, hp, hwg, fun _ => hm⟩
      · cases h

/-- Under every schedule, once `main` has left `wg.Wait()` the file and the
permission goroutine have returned from `Run`. -/
theorem main_waits_for_deferred (fileSends permissionSends searchSends : List Err)
    (schedule : List Tid) (s : Sys)
    (h : exec schedule (Sys.init fileSends permissionSends searchSends) = some s)
    (hleft : s.main ≠ .waiting) :
    s.file.pc = .returned ∧ s.permission.pc = .returned := by
  have key : ∀ (schedule : List Tid) (s0 s : Sys), exec schedule s0 = some s →
      (s0.file.pc ≠ .start ∧ s0.permission.pc ≠ .start ∧
        s0.wg = (if s0.file.pc = .returned then 0 else 1)
          + (if s0.permission.pc = .returned then 0 else 1)
          + (if s0.search.pc = .start then 1 else 0) ∧
        (s0.main ≠ .waiting → s0.file.pc = .returned ∧ s0.permission.pc = .returned)) →
      (s.main ≠ .waiting → s.file.pc = .returned ∧ s.permission.pc = .returned) := by
    intro schedule
    induction schedule with
    | nil =>
      intro s0 s h hinv
      simp only [exec, Option.some.injEq] at h
      subst h; exact hinv.2.2.2
    | cons t ts ih =>
      intro s0 s h hinv
      unfold exec at h
      cases hstep : step t s0 with
      | none => simp [hstep] at h
      | some s1 =>
        simp only [hstep] at h
        exact ih s1 s h (step_waitgroup t s0 s1 hstep hinv)
  exact key schedule _ s h (by simp [Sys.init]) hleft


/-! ## The search goroutine is not waited for -/

/-- C10: a run of `main` in which the drain loop and "Migration done" come
before `Search.Run` has returned. The search goroutine calls `wg.Done()` as
its first statement, the file and permission goroutines return, `main` leaves
`wg.Wait()`, drains the empty channel and returns while the search goroutine
is still inside `Run`, its error never sent and never printed. -/
theorem main_exits_before_search_returns :
    ∃ s, exec lateSearchSchedule
        (Sys.init (File.Run sampleFileEnv false sampleStore).sent
          (Permission.Run samplePermissionEnv false samplePermissions).sent
          (Search.Run failingSearchEnv sampleFiles).sent) = some s ∧
      s.main = .exited ∧ s.file.pc = .returned ∧ s.permission.pc = .returned ∧
      s.search.pc = .running ∧ s.search.pending = [.msg "search unavailable"] ∧
      s.stdout = ["Migration done"] :=
  ⟨_, rfl, rfl, rfl, rfl, rfl, rfl, rfl⟩

/-! ## The theorems at sample inputs -/

theorem read_role_renumbering_witness :
    (Permission.RunReadRoleUpdate samplePermissionEnv samplePermissions).1 = none ∧
    (Permission.RunReadRoleUpdate samplePermissionEnv samplePermissions).2
      = [ { ID := oid 1, FileID := "F1", UserID := "A", Role := 2, Creator := some "U0" },
          { ID := oid 2, FileID := "F2", UserID := "B", Role := 1, Creator := none } ] ∧
    (Permission.RunReadRoleUpdate samplePermissionEnv samplePermissions).2.length
      = samplePermissions.length ∧
    List.Forall₂
      (fun before after =>
        (before.Role = 3 → after.Role = 2) ∧
        (before.Role ≠ 3 → after = before) ∧
        after.ID = before.ID ∧ after.FileID = before.FileID ∧
        after.UserID = before.UserID ∧ after.Creator = before.Creator)
      samplePermissions
      (Permission.RunReadRoleUpdate samplePermissionEnv samplePermissions).2 ∧
    ∀ creatorFirst : Bool,
      List.Forall₂
        (fun before after =>
          (before.Role = 3 → after.Role = 2) ∧
          (before.Role ≠ 3 → after.Role = before.Role) ∧
          after.ID = before.ID ∧ after.FileID = before.FileID ∧ after.UserID = before.UserID)
        samplePermissions (Permission.Run samplePermissionEnv creatorFirst samplePermissions).store :=
  ⟨rfl, rfl, read_role_renumbering samplePermissionEnv samplePermissions rfl⟩

theorem set_creator_never_overwrites_witness :
    (Permission.RunSetCreator samplePermissionEnv samplePermissions).coll
      = [ { ID := oid 1, FileID := "F1", UserID := "A", Role := 3, Creator := some "U0" },
          { ID := oid 2, FileID := "F2", UserID := "B", Role := 1, Creator := some "U2" } ] ∧
    (Permission.RunSetCreator samplePermissionEnv samplePermissions).coll.length
      = samplePermissions.length ∧
    List.Forall₂
      (fun before after => ∀ c, before.Creator = some c → after.Creator = some c)
      samplePermissions (Permission.RunSetCreator samplePermissionEnv samplePermissions).coll :=
  ⟨rfl, set_creator_never_overwrites samplePermissionEnv samplePermissions⟩

theorem set_creator_backfills_witness :
    (samplePermissions.map (fun d => d.ID)).Nodup ∧
    (Permission.RunSetCreator samplePermissionEnv samplePermissions).err = none ∧
    ∃ file, samplePermissionEnv.GetFileByID 1 "F2" = .ok file ∧
      ((none : Option String) = none →
        (Permission.RunSetCreator samplePermissionEnv samplePermissions).coll[1]?
          = some { ID := oid 2, FileID := "F2", UserID := "B", Role := 1,
                   Creator := some file.OwnerID }) ∧
      ((none : Option String) ≠ none →
        (Permission.RunSetCreator samplePermissionEnv samplePermissions).coll[1]?
          = some { ID := oid 2, FileID := "F2", UserID := "B", Role := 1, Creator := none }) :=
  ⟨by decide, rfl,
    set_creator_backfills samplePermissionEnv samplePermissions (by decide) rfl 1
      { ID := oid 2, FileID := "F2", UserID := "B", Role := 1, Creator := none } rfl⟩

theorem set_float_backfill_witness :
    (File.RunSetFloat sampleFileEnv sampleFiles).1 = none ∧
    (File.RunSetFloat sampleFileEnv sampleFiles).2.map (fun d => d.Float)
      = [some false, some true, some false] ∧
    (File.RunSetFloat sampleFileEnv sampleFiles).2.length = sampleFiles.length ∧
    List.Forall₂
      (fun before after =>
        (∃ b : Bool, after.Float = some b) ∧
        (before.Float = none → after.Float = some false) ∧
        (∀ b, before.Float = some b → after.Float = some b) ∧
        after = { before with Float := after.Float })
      sampleFiles (File.RunSetFloat sampleFileEnv sampleFiles).2 :=
  ⟨rfl, rfl, set_float_backfill sampleFileEnv sampleFiles rfl⟩

theorem set_float_idempotent_witness :
    (File.RunSetFloat sampleFileEnv sampleFiles).1 = none ∧
    (∀ d ∈ (File.RunSetFloat sampleFileEnv sampleFiles).2,
      FileCond.accepts filterFloat d = false) ∧
    ∀ env2 : FileEnv,
      (File.RunSetFloat env2 (File.RunSetFloat sampleFileEnv sampleFiles).2).2
        = (File.RunSetFloat sampleFileEnv sampleFiles).2 :=
  ⟨rfl, set_float_idempotent sampleFileEnv sampleFiles rfl⟩

theorem search_run_fail_fast_witness :
    failingSearchEnv.cursor.findErr = none ∧
    (∀ n, failingSearchEnv.cursor.decodeErr n = none) ∧
    failingSearchEnv.cursor.cursorErr = none ∧
    (Search.Run failingSearchEnv sampleFiles).created
      = (sampleFiles.map (fun d => searchFile (FileBSON.decode d))).take 2 ∧
    (Search.Run failingSearchEnv sampleFiles).sent = [.msg "search unavailable"] :=
  ⟨rfl, fun _ => rfl, rfl,
    (search_run_fail_fast failingSearchEnv sampleFiles rfl (fun _ => rfl) rfl).1 1 _
      (.msg "search unavailable") rfl rfl
      (fun j q hj _ => by
        have h0 : j = 0 := by omega
        subst h0; rfl)⟩

theorem set_creator_fail_fast_witness :
    (pendingPermissions.map (fun d => d.ID)).Nodup ∧
    SetCreatorCall.lookup 1 "F2" none
      ∈ (Permission.RunSetCreator failingLookupEnv pendingPermissions).calls ∧
    (Permission.RunSetCreator failingLookupEnv pendingPermissions).coll
      = [ { ID := oid 1, FileID := "F1", UserID := "A", Role := 1, Creator := some "U1" },
          { ID := oid 2, FileID := "F2", UserID := "B", Role := 1, Creator := none },
          { ID := oid 3, FileID := "F3", UserID := "C", Role := 1, Creator := none } ] ∧
    (Permission.RunSetCreator failingLookupEnv pendingPermissions).err ≠ none ∧
    (∀ m fid' o, SetCreatorCall.lookup m fid' o
        ∈ (Permission.RunSetCreator failingLookupEnv pendingPermissions).calls → m ≤ 1) ∧
    (∀ m id o, SetCreatorCall.update m id o
        ∈ (Permission.RunSetCreator failingLookupEnv pendingPermissions).calls → m < 1) ∧
    (∀ j, 1 ≤ j →
      (Permission.RunSetCreator failingLookupEnv pendingPermissions).coll[j]?
        = pendingPermissions[j]?) ∧
    (∀ j d, j < 1 → pendingPermissions[j]? = some d →
      ∃ file, failingLookupEnv.GetFileByID j d.FileID = .ok file ∧
        (Permission.RunSetCreator failingLookupEnv pendingPermissions).coll[j]?
          = some (if d.Creator = none then { d with Creator := some file.OwnerID } else d)) :=
  ⟨by decide, by decide, rfl,
    set_creator_fail_fast failingLookupEnv pendingPermissions (by decide) 1 "F2" (by decide)⟩

theorem search_payload_location_witness :
    (searchFile (FileBSON.decode
        { ID := oid 11, Description := "", Size := 7, Parent := some (oid 10),
          Float := some true, Type' := "text", Name := "child", OwnerID := "U1", Bucket := "b",
          Key := "k1", CreatedAt := 1500, UpdatedAt := 2500 })).FileOrId
      = some (.File_Parent "00000000000000000000000a") :=
  (search_payload_location
    { ID := oid 11, Description := "", Size := 7, Parent := some (oid 10),
      Float := some true, Type' := "text", Name := "child", OwnerID := "U1", Bucket := "b",
      Key := "k1", CreatedAt := 1500, UpdatedAt := 2500 }).1

theorem error_channel_never_full_witness :
    (Search.Run failingSearchEnv sampleFiles).sent.length = 1 ∧
    ∀ (schedule : List Tid) (s : Sys),
      exec schedule (Sys.init (File.Run sampleFileEnv false sampleStore).sent
        (Permission.Run failingLookupEnv false pendingPermissions).sent
        (Search.Run failingSearchEnv sampleFiles).sent) = some s →
      s.errc.length ≤ errcCap ∧ ∀ t, blockedOnSend t s = false :=
  ⟨rfl, (error_channel_never_full sampleFileEnv false sampleStore failingLookupEnv false
    pendingPermissions failingSearchEnv sampleFiles).2.2.2.2⟩


end Migration
